import Mathlib

/-!
Verification of the xk6-working-memory cache module.

The outer API (`Cache.Init`, `Cache.Set`, `Cache.Get`, `Cache.Flush`) is
embedded from `memory/memory.go`.  The inner TTL store that the outer API
delegates to (created by `cache.New`) lives in an external dependency whose
source is not part of this repository, so it is modelled from the spec's
description of the TTL Store (insert-with-deadline, lookup-with-expiry-check,
full clear, janitor sweep).

Time is modelled as an integer nanosecond timestamp supplied to each
operation (the value `time.Now().UnixNano()` would have at the call).
Durations given in seconds by the caller are converted to nanoseconds,
mirroring `time.Duration(n) * time.Second`.
-/

/-- A value stored in the inner cache.  The Go store holds `interface{}`
values; the embedding allows both strings and non-string payloads so that
the type assertion performed by `Get` is meaningful. -/
inductive GoVal where
  | str : String → GoVal
  | other : Nat → GoVal
  deriving DecidableEq, Repr

/-- Modelled from the spec: an entry of the TTL Store holds a payload and an
absolute expiration deadline (`expiresAt`), with `0` the sentinel meaning
"never expires". -/
structure Item where
  object : GoVal
  expiration : Int
  deriving DecidableEq, Repr

/-- Modelled from the spec: the TTL Store is a mapping from keys to entries
together with the configured default TTL and cleanup interval (both in
nanoseconds). -/
structure GoCache where
  defaultExpiration : Int
  cleanupInterval : Int
  items : String → Option Item

/-- Nanoseconds per second: `time.Second`. -/
def nanosPerSec : Int := 1000000000

/-- The sentinel duration meaning "use the store's default TTL"
(`cache.DefaultExpiration`). -/
def defaultExpirationSentinel : Int := 0

/-- Modelled from the spec: `initialize(defaultTTL, cleanupInterval)` yields
an empty store configured with the given durations. -/
def GoCache.new (defExp cleanup : Int) : GoCache :=
  { defaultExpiration := defExp, cleanupInterval := cleanup,
    items := fun _ => none }

/-- Modelled from the spec: insert-with-deadline.  A duration equal to the
default-TTL sentinel is replaced by the store's default TTL; a positive
duration sets the deadline `now + d`; a non-positive duration stores the
"never expires" sentinel.  Inserting an existing key overwrites it and
resets its deadline. -/
def GoCache.set (c : GoCache) (now : Int) (k : String) (v : GoVal)
    (d : Int) : GoCache :=
  let d' := if d = defaultExpirationSentinel then c.defaultExpiration else d
  let e := if 0 < d' then now + d' else 0
  { c with items := fun k' => if k' = k then some ⟨v, e⟩ else c.items k' }

/-- Modelled from the spec: lookup-with-expiry-check.  An entry whose
deadline has passed is treated as not found even if it is still physically
present. -/
def GoCache.get (c : GoCache) (now : Int) (k : String) : Option GoVal :=
  match c.items k with
  | none => none
  | some it =>
    if 0 < it.expiration ∧ it.expiration < now then none else some it.object

/-- Modelled from the spec: full clear — removes all entries. -/
def GoCache.flush (c : GoCache) : GoCache :=
  { c with items := fun _ => none }

/-- Modelled from the spec: the janitor sweep physically deletes every
entry whose deadline has passed as of the sweep time. -/
def GoCache.deleteExpired (c : GoCache) (now : Int) : GoCache :=
  { c with items := fun k =>
      match c.items k with
      | none => none
      | some it =>
        if 0 < it.expiration ∧ it.expiration < now then none else some it }

/-- The outer `Cache` struct of `memory.go`: a possibly-nil pointer to the
inner store (the mutex is not represented; each operation is atomic in the
embedding). -/
structure Cache where
  cache : Option GoCache

/-- A fresh, never-initialized `Cache{}` instance. -/
def Cache.fresh : Cache := ⟨none⟩

/-- The error message returned by operations on an uninitialized store. -/
def uninitMsg : String := "cache not initialized: please call init() first"

/-- Embeds `Cache.Init`: builds a new inner store from the durations given in
seconds, replacing any existing one. -/
def Cache.InitOp (_ : Cache) (defaultExpiration cleanupInterval : Int) :
    Cache :=
  ⟨some (GoCache.new (defaultExpiration * nanosPerSec)
    (cleanupInterval * nanosPerSec))⟩

/-- Embeds `Cache.Set`: on a nil store, returns `false` and the error.  Otherwise
converts the optional expiration argument (seconds) to a duration, defaulting
to `cache.DefaultExpiration` when omitted, stores the value, and reports
whether an immediate lookup finds it. -/
def Cache.SetOp (c : Cache) (now : Int) (id value : String)
    (expiration : List Int) : Cache × Bool × Option String :=
  match c.cache with
  | none => (c, false, some uninitMsg)
  | some gc =>
    let exp : Int :=
      match expiration with
      | e :: _ => e * nanosPerSec
      | [] => defaultExpirationSentinel
    let gc' := gc.set now id (GoVal.str value) exp
    (⟨some gc'⟩, (gc'.get now id).isSome, none)

/-- Outcome of `Cache.Get`: either a normal return (the retrieved string, or
`none` for Go's `nil` not-found indicator) or a failed type assertion. -/
inductive GetResult where
  | ok : Option String → GetResult
  | assertFail : GetResult
  deriving DecidableEq, Repr

/-- Embeds `Cache.Get`: on a nil store, returns `nil` and the error.  Otherwise
looks the key up; a found value goes through the `value.(string)` type
assertion; not-found yields `nil` with no error. -/
def Cache.GetOp (c : Cache) (now : Int) (id : String) :
    GetResult × Option String :=
  match c.cache with
  | none => (GetResult.ok none, some uninitMsg)
  | some gc =>
    match gc.get now id with
    | some (GoVal.str s) => (GetResult.ok (some s), none)
    | some (GoVal.other _) => (GetResult.assertFail, none)
    | none => (GetResult.ok none, none)

/-- Embeds `Cache.Flush`: on a nil store, returns the error; otherwise clears all
items. -/
def Cache.FlushOp (c : Cache) : Cache × Option String :=
  match c.cache with
  | none => (c, some uninitMsg)
  | some gc => (⟨some gc.flush⟩, none)

/-- Claim C1: on a fresh, never-initialized instance, `set` returns `false`
with the uninitialized-store error and leaves the state unchanged, `get`
returns no value with the error, and `flush` returns the error and leaves
the state unchanged. -/
theorem uninitialized_ops_fail (now : Int) (id value : String)
    (expiration : List Int) :
    Cache.SetOp Cache.fresh now id value expiration =
      (Cache.fresh, false, some uninitMsg) ∧
    Cache.GetOp Cache.fresh now id = (GetResult.ok none, some uninitMsg) ∧
    Cache.FlushOp Cache.fresh = (Cache.fresh, some uninitMsg) := by
  refine ⟨rfl, rfl, rfl⟩

/-- Claim C2: on an initialized cache, `set(k, v)` followed by `get(k)` before
the entry's TTL has elapsed returns `v` with no error. -/
theorem set_get_roundtrip (gc : GoCache) (now nowG : Int) (k v : String)
    (h : gc.defaultExpiration ≤ 0 ∨ nowG ≤ now + gc.defaultExpiration) :
    Cache.GetOp (Cache.SetOp ⟨some gc⟩ now k v []).1 nowG k =
      (GetResult.ok (some v), none) := by
  rcases h with h | h <;>
    simp only [Cache.SetOp, Cache.GetOp, GoCache.set, GoCache.get,
      defaultExpirationSentinel] <;>
    split_ifs <;>
    simp_all <;>
    first
      | omega
      | rw [if_neg (by omega)]

/-- Claim C2 witness: a concrete round-trip. -/
theorem set_get_roundtrip_witness :
    Cache.GetOp (Cache.SetOp ⟨some (GoCache.new (5 * nanosPerSec) 0)⟩
      0 "k" "v" []).1 0 "k" = (GetResult.ok (some "v"), none) :=
  set_get_roundtrip (GoCache.new (5 * nanosPerSec) 0) 0 0 "k" "v"
    (by right; decide)

/-- Claim C3: an entry whose deadline lies in the past is never returned by a
lookup, whether or not the janitor sweep has already physically removed
it. -/
theorem expired_entry_not_returned (gc : GoCache) (now : Int) (k : String)
    (it : Item) (hit : gc.items k = some it)
    (hpos : 0 < it.expiration) (hpast : it.expiration < now) :
    Cache.GetOp ⟨some gc⟩ now k = (GetResult.ok none, none) ∧
    Cache.GetOp ⟨some (gc.deleteExpired now)⟩ now k =
      (GetResult.ok none, none) := by
  constructor
  · simp [Cache.GetOp, GoCache.get, hit, hpos, hpast]
  · simp [Cache.GetOp, GoCache.get, GoCache.deleteExpired, hit, hpos, hpast]

/-- Claim C3 witness: a concrete expired entry. -/
theorem expired_entry_not_returned_witness :
    Cache.GetOp ⟨some ((GoCache.new 0 0).set 0 "k" (GoVal.str "v")
      nanosPerSec)⟩ (2 * nanosPerSec) "k" = (GetResult.ok none, none) :=
  (expired_entry_not_returned
    ((GoCache.new 0 0).set 0 "k" (GoVal.str "v") nanosPerSec)
    (2 * nanosPerSec) "k" ⟨GoVal.str "v", nanosPerSec⟩
    (by simp [GoCache.set, GoCache.new, defaultExpirationSentinel,
      nanosPerSec])
    (by decide) (by decide)).1

/-- Claim C4: on an initialized cache, `set(k, v1)` then `set(k, v2)` then
`get(k)` returns `v2`; the second `set` leaves a single entry for `k`
holding `v2` whose deadline is computed from the second insertion time. -/
theorem set_overwrites (gc : GoCache) (now1 now2 : Int) (k v1 v2 : String) :
    Cache.GetOp (Cache.SetOp (Cache.SetOp ⟨some gc⟩ now1 k v1 []).1
        now2 k v2 []).1 now2 k = (GetResult.ok (some v2), none) ∧
    ∃ gc2, (Cache.SetOp (Cache.SetOp ⟨some gc⟩ now1 k v1 []).1
        now2 k v2 []).1.cache = some gc2 ∧
      gc2.items k = some ⟨GoVal.str v2,
        if 0 < gc.defaultExpiration then now2 + gc.defaultExpiration
        else 0⟩ := by
  constructor
  · simp only [Cache.SetOp, Cache.GetOp, GoCache.set, GoCache.get,
      defaultExpirationSentinel]
    split_ifs <;> simp_all <;>
      first
        | omega
        | rw [if_neg (by omega)]
  · refine ⟨_, rfl, ?_⟩
    simp [GoCache.set, defaultExpirationSentinel]

/-- Claim C5: after a successful `set(k, v)`, calling `init` again with
non-negative durations replaces the contents with an empty store, so a
subsequent `get(k)` returns the not-found indicator. -/
theorem reinit_resets_contents (gc : GoCache) (now nowG : Int)
    (k v : String) (exp : List Int) (d cl : Int)
    (hd : 0 ≤ d) (hcl : 0 ≤ cl) :
    Cache.GetOp (Cache.InitOp (Cache.SetOp ⟨some gc⟩ now k v exp).1 d cl)
      nowG k = (GetResult.ok none, none) := rfl

/-- Claim C5 witness: a concrete reinitialization. -/
theorem reinit_resets_contents_witness :
    0 ≤ (1 : Int) ∧
    Cache.GetOp (Cache.InitOp
      (Cache.SetOp ⟨some (GoCache.new 0 0)⟩ 0 "k" "v" []).1 1 1) 0 "k" =
      (GetResult.ok none, none) :=
  ⟨by decide, reinit_resets_contents (GoCache.new 0 0) 0 0 "k" "v" [] 1 1
    (by decide) (by decide)⟩

/-- Claim C6: on an initialized cache, `set` returns `true` and no error for
every key, value and optional expiration argument (zero and negative
included); on an uninitialized cache it returns `false` and the error. -/
theorem set_succeeds_on_initialized (gc : GoCache) (now : Int)
    (id value : String) (expiration : List Int) :
    (Cache.SetOp ⟨some gc⟩ now id value expiration).2 = (true, none) ∧
    (Cache.SetOp Cache.fresh now id value expiration).2 =
      (false, some uninitMsg) := by
  constructor
  · cases expiration <;>
      simp only [Cache.SetOp, GoCache.set, GoCache.get,
        defaultExpirationSentinel] <;>
      split_ifs <;>
      simp_all <;>
      first
        | omega
        | rw [if_neg (by omega)]
  · rfl

/-- A sequence of `set` calls (each with the default expiration), as in the
flush test scenario. -/
def applySets (c : Cache) (now : Int) (kvs : List (String × String)) :
    Cache :=
  kvs.foldl (fun acc kv => (Cache.SetOp acc now kv.1 kv.2 []).1) c

/-- Applying `set` calls to an initialized cache keeps it initialized. -/
theorem applySets_cache_isSome (gc : GoCache) (now : Int)
    (kvs : List (String × String)) :
    ∃ gc', (applySets ⟨some gc⟩ now kvs).cache = some gc' := by
  induction kvs generalizing gc with
  | nil => exact ⟨gc, rfl⟩
  | cons kv rest ih =>
      simpa [applySets, Cache.SetOp] using
        ih (gc.set now kv.1 (GoVal.str kv.2) defaultExpirationSentinel)

/-- Claim C7: after any number of `set` calls on an initialized cache, `flush`
succeeds and a subsequent `get` on any key (in particular every
previously-set key) returns the not-found indicator; `flush` fails only on
an uninitialized store. -/
theorem flush_clears_everything (gc : GoCache) (now nowG : Int)
    (kvs : List (String × String)) (k : String) :
    (Cache.FlushOp (applySets ⟨some gc⟩ now kvs)).2 = none ∧
    Cache.GetOp (Cache.FlushOp (applySets ⟨some gc⟩ now kvs)).1 nowG k =
      (GetResult.ok none, none) ∧
    (Cache.FlushOp Cache.fresh).2 = some uninitMsg := by
  obtain ⟨gc', hgc⟩ := applySets_cache_isSome gc now kvs
  refine ⟨?_, ?_, rfl⟩ <;>
    simp [Cache.FlushOp, hgc, GoCache.flush, Cache.GetOp, GoCache.get]

/-- Claim C8: a stored empty string is returned as the empty string itself,
which is distinct from the not-found indicator returned for an absent
key. -/
theorem empty_string_distinguishable (gc : GoCache) (now : Int)
    (k : String) :
    Cache.GetOp (Cache.SetOp ⟨some gc⟩ now k "" []).1 now k =
      (GetResult.ok (some ""), none) ∧
    (gc.items k = none →
      Cache.GetOp ⟨some gc⟩ now k = (GetResult.ok none, none)) ∧
    GetResult.ok (some "") ≠ GetResult.ok none := by
  refine ⟨?_, ?_, by simp⟩
  · simp only [Cache.SetOp, Cache.GetOp, GoCache.set, GoCache.get,
      defaultExpirationSentinel]
    split_ifs <;> simp_all <;>
      first
        | omega
        | rw [if_neg (by omega)]
  · intro h
    simp [Cache.GetOp, GoCache.get, h]

/-- Claim C8 witness: on a concrete empty store, `get` of an absent key is the
not-found indicator. -/
theorem empty_string_distinguishable_witness :
    (GoCache.new 0 0).items "k" = none ∧
    Cache.GetOp ⟨some (GoCache.new 0 0)⟩ 0 "k" =
      (GetResult.ok none, none) :=
  ⟨rfl, (empty_string_distinguishable (GoCache.new 0 0) 0 "k").2.1 rfl⟩

/-- A call against the shared cache instance: one of the four public
operations, or a janitor sweep. -/
inductive Op where
  | initCall (defExp cleanup : Int)
  | setCall (now : Int) (id value : String) (expiration : List Int)
  | getCall (now : Int) (id : String)
  | flushCall
  | sweep (now : Int)

/-- The state transition performed by one call. -/
def Op.apply (c : Cache) : Op → Cache
  | .initCall d cl => Cache.InitOp c d cl
  | .setCall now id v e => (Cache.SetOp c now id v e).1
  | .getCall _ _ => c
  | .flushCall => (Cache.FlushOp c).1
  | .sweep now =>
    match c.cache with
    | none => c
    | some gc => ⟨some (gc.deleteExpired now)⟩

/-- Running a sequence of calls from a given state. -/
def runOps (c : Cache) (ops : List Op) : Cache :=
  ops.foldl Op.apply c

/-- Every payload currently in the store is a string. -/
def Cache.strOnly (c : Cache) : Prop :=
  ∀ gc, c.cache = some gc → ∀ k it, gc.items k = some it →
    ∃ s, it.object = GoVal.str s

/-- A fresh instance trivially holds only strings. -/
theorem strOnly_fresh : Cache.fresh.strOnly := by
  intro gc hgc
  simp [Cache.fresh, Cache.fresh] at hgc

/-- Each call preserves the strings-only invariant: the only writer of
payloads is `set`, and it stores strings. -/
theorem strOnly_apply (c : Cache) (o : Op) (h : c.strOnly) :
    (Op.apply c o).strOnly := by
  cases o with
  | initCall d cl =>
      intro gc hgc k it hit
      obtain rfl := Option.some.inj hgc
      simp [GoCache.new] at hit
  | setCall now id v e =>
      intro gc hgc k it hit
      cases hc : c.cache with
      | none =>
          simp only [Op.apply, Cache.SetOp, hc] at hgc
          exact absurd hgc (by simp)
      | some gc0 =>
          simp only [Op.apply, Cache.SetOp, hc] at hgc
          obtain rfl := Option.some.inj hgc
          simp only [GoCache.set] at hit
          by_cases hk : k = id
          · rw [if_pos hk] at hit
            obtain rfl := Option.some.inj hit
            exact ⟨v, rfl⟩
          · rw [if_neg hk] at hit
            exact h gc0 hc k it hit
  | getCall now id =>
      exact h
  | flushCall =>
      intro gc hgc k it hit
      cases hc : c.cache with
      | none =>
          simp only [Op.apply, Cache.FlushOp, hc] at hgc
          exact absurd hgc (by simp)
      | some gc0 =>
          simp only [Op.apply, Cache.FlushOp, hc] at hgc
          obtain rfl := Option.some.inj hgc
          simp [GoCache.flush] at hit
  | sweep now =>
      intro gc hgc k it hit
      cases hc : c.cache with
      | none =>
          simp only [Op.apply, hc] at hgc
          exact absurd hgc (by simp)
      | some gc0 =>
          simp only [Op.apply, hc] at hgc
          obtain rfl := Option.some.inj hgc
          simp only [GoCache.deleteExpired] at hit
          cases hi : gc0.items k with
          | none => rw [hi] at hit; exact absurd hit (by simp)
          | some it0 =>
              rw [hi] at hit
              have hit2 : (if 0 < it0.expiration ∧ it0.expiration < now
                  then none else some it0) = some it := hit
              by_cases hcond : 0 < it0.expiration ∧ it0.expiration < now
              · rw [if_pos hcond] at hit2
                exact absurd hit2 (by simp)
              · rw [if_neg hcond] at hit2
                obtain rfl := Option.some.inj hit2
                exact h gc0 hc k it0 hi

/-- Running any call sequence preserves the strings-only invariant. -/
theorem strOnly_runOps (c : Cache) (ops : List Op) (h : c.strOnly) :
    (runOps c ops).strOnly := by
  induction ops generalizing c with
  | nil => exact h
  | cons o rest ih => exact ih _ (strOnly_apply c o h)

/-- On a strings-only state, the type assertion in `get` cannot fail. -/
theorem getOp_no_assertFail (c : Cache) (h : c.strOnly) (now : Int)
    (id : String) : (Cache.GetOp c now id).1 ≠ GetResult.assertFail := by
  cases hc : c.cache with
  | none => simp [Cache.GetOp, hc]
  | some gc =>
    cases hg : gc.get now id with
    | none => simp [Cache.GetOp, hc, hg]
    | some v =>
      cases v with
      | str s => simp [Cache.GetOp, hc, hg]
      | other n =>
        exfalso
        unfold GoCache.get at hg
        cases hi : gc.items id with
        | none => rw [hi] at hg; exact absurd hg (by simp)
        | some it =>
          rw [hi] at hg
          have hg2 : (if 0 < it.expiration ∧ it.expiration < now
              then none else some it.object) = some (GoVal.other n) := hg
          obtain ⟨s, hs⟩ := h gc hc id it hi
          by_cases hcond : 0 < it.expiration ∧ it.expiration < now
          · rw [if_pos hcond] at hg2; simp at hg2
          · rw [if_neg hcond] at hg2
            rw [hs] at hg2
            simp at hg2

/-- Claim C9: for every sequence of calls starting from a fresh instance (all
operations are total functions in the embedding, so none can crash), the
`value.(string)` type assertion in `get` never fails, because every value
placed in the store by `set` is a string. -/
theorem get_assertion_always_succeeds (ops : List Op) (now : Int)
    (id : String) :
    (Cache.GetOp (runOps Cache.fresh ops) now id).1 ≠
      GetResult.assertFail :=
  getOp_no_assertFail _ (strOnly_runOps Cache.fresh ops strOnly_fresh)
    now id
